import Mathlib

/-!
Shallow embedding of the event-delivery layer (Delivery Manager) of the
`zap` repository, translated from `src/delivery_manager.go` and the HTTP
handler file `src/unnamed/part_000`.

Modelling conventions:
- Go `time.Time` values are modelled as `Nat` instants; `time.Duration`
  as `Nat`.  The timing fields `Duration`/`Timestamp` of `DeliveryResult`
  are not modelled (no claim mentions them).
- The Go map `pendingEvents map[string]*DeliveryEvent` is modelled as an
  association list `List (String × DeliveryEvent)`; Go pointer mutation of
  an event that is still stored in the map is modelled as an in-place
  update of the entry keyed by the event's id.
- Network effects are abstracted into an `Env` oracle: each adapter's
  POST/publish outcome is an `Option String` (`none` = success, `some e` =
  the transport error string), and `GetHTTPClient(userID) ≠ nil` is a
  boolean predicate on the user id.
-/

/-- Delivery status, from `DeliveryStatus` constants in delivery_manager.go. -/
inductive DeliveryStatus where
  | pending
  | delivered
  | failed
deriving DecidableEq, Repr

/-- `DeliveryEvent`, from delivery_manager.go (payload/JsonData collapsed to
one serialized string; timing as `Nat`). -/
structure DeliveryEvent where
  id : String
  userID : String
  token : String
  eventType : String
  jsonData : String
  filePath : String
  createdAt : Nat
  attemptCount : Nat
  status : DeliveryStatus
  lastError : String
deriving DecidableEq, Repr

/-- `DeliveryResult`, from delivery_manager.go (Duration/Timestamp omitted). -/
structure DeliveryResult where
  channel : String
  success : Bool
  error : String
deriving DecidableEq, Repr

/-- `DeliveryManager` state: the pending-event map plus configuration,
from delivery_manager.go. -/
structure DeliveryManager where
  pendingEvents : List (String × DeliveryEvent)
  maxRetries : Nat
  retryBackoff : Nat
deriving DecidableEq, Repr

/-- External collaborators and network outcomes used by the channel
adapters: `getUserWebhookUrl`, the `globalWebhook` flag value, the
`rabbitEnabled` flag, `clientManager.GetHTTPClient` presence, and the
outcome oracles for the three network calls (`none` = the call succeeded,
`some e` = it returned error `e`). -/
structure Env where
  getUserWebhookUrl : String → String
  globalWebhook : String
  rabbitEnabled : Bool
  httpClient : String → Bool
  userHookErr : DeliveryEvent → Option String
  globalHookErr : DeliveryEvent → Option String
  rabbitErr : DeliveryEvent → Option String
  ctxExpired : Bool

/-- Association-list lookup, modelling `dm.pendingEvents[eventID]`. -/
def lookupKey (k : String) : List (String × DeliveryEvent) → Option DeliveryEvent
  | [] => none
  | p :: rest => if p.1 = k then some p.2 else lookupKey k rest

/-- Association-list deletion, modelling `delete(dm.pendingEvents, id)`. -/
def eraseKey (k : String) (l : List (String × DeliveryEvent)) :
    List (String × DeliveryEvent) :=
  l.filter (fun p => p.1 ≠ k)

/-- Association-list insertion/replacement, modelling `dm.pendingEvents[id] = e`. -/
def insertKey (k : String) (v : DeliveryEvent) (l : List (String × DeliveryEvent)) :
    List (String × DeliveryEvent) :=
  eraseKey k l ++ [(k, v)]

/-- `deliverToUserWebhook`: nil HTTP client yields a fixed failure; otherwise
the POST outcome (regular or file webhook, both abstracted by the
`userHookErr` oracle) decides success. -/
def deliverToUserWebhook (env : Env) (event : DeliveryEvent)
    (_webhookURL : String) : DeliveryResult :=
  if env.httpClient event.userID then
    match env.userHookErr event with
    | some e => { channel := "webhook", success := false, error := e }
    | none => { channel := "webhook", success := true, error := "" }
  else
    { channel := "webhook", success := false, error := "HTTP client not found for user" }

/-- `deliverToGlobalWebhook`: with an HTTP client the POST outcome decides
success; a nil client yields a fixed failure. -/
def deliverToGlobalWebhook (env : Env) (event : DeliveryEvent) : DeliveryResult :=
  if env.httpClient event.userID then
    match env.globalHookErr event with
    | some e => { channel := "global_webhook", success := false, error := e }
    | none => { channel := "global_webhook", success := true, error := "" }
  else
    { channel := "global_webhook", success := false, error := "HTTP client not available" }

/-- `deliverToRabbitMQ`: an already-expired context yields a fixed failure;
otherwise the synchronous publish outcome decides success. -/
def deliverToRabbitMQ (env : Env) (event : DeliveryEvent) : DeliveryResult :=
  if env.ctxExpired then
    { channel := "rabbitmq", success := false, error := "Context timeout" }
  else
    match env.rabbitErr event with
    | some e => { channel := "rabbitmq", success := false, error := e }
    | none => { channel := "rabbitmq", success := true, error := "" }

/-- The fan-out dispatch of `processDelivery`: one result per enabled
channel (user webhook iff `getUserWebhookUrl(token)` non-empty, global
webhook iff `*globalWebhook` non-empty, RabbitMQ iff `rabbitEnabled`); a
channel without destination is not dispatched at all. -/
def collectResults (env : Env) (event : DeliveryEvent) : List DeliveryResult :=
  (if env.getUserWebhookUrl event.token ≠ "" then
    [deliverToUserWebhook env event (env.getUserWebhookUrl event.token)]
  else []) ++
  (if env.globalWebhook ≠ "" then [deliverToGlobalWebhook env event] else []) ++
  (if env.rabbitEnabled then [deliverToRabbitMQ env event] else [])

/-- The enabled-channel set as the spec describes it (fan-out step 1):
user webhook iff a non-empty destination URL resolves for the token,
global webhook iff the global URL is non-empty, broker iff broker
publishing is enabled.  Written from the spec's words, to be compared
with the channels actually dispatched by `collectResults`. -/
def enabledChannels (env : Env) (event : DeliveryEvent) : List String :=
  (if env.getUserWebhookUrl event.token ≠ "" then ["webhook"] else []) ++
  (if env.globalWebhook ≠ "" then ["global_webhook"] else []) ++
  (if env.rabbitEnabled then ["rabbitmq"] else [])

/-- The result-collection loop of `processDelivery`: `allSuccess` starts
`true` and is cleared by any unsuccessful result. -/
def aggregateSuccess (results : List DeliveryResult) : Bool :=
  results.foldl (fun acc r => acc && r.success) true

/-- `processDelivery`: runs the fan-out, aggregates, and updates the event
record and the pending map under the write lock.  Returns the updated
manager state and the (pointer-)mutated event. -/
def processDelivery (env : Env) (dm : DeliveryManager) (event : DeliveryEvent) :
    DeliveryManager × DeliveryEvent :=
  let results := collectResults env event
  if aggregateSuccess results then
    let event := { event with status := DeliveryStatus.delivered }
    ({ dm with pendingEvents := eraseKey event.id dm.pendingEvents }, event)
  else
    let event := { event with attemptCount := event.attemptCount + 1 }
    if dm.maxRetries ≤ event.attemptCount then
      let event := { event with
        status := DeliveryStatus.failed
        lastError := "Max retries exceeded" }
      ({ dm with pendingEvents := eraseKey event.id dm.pendingEvents }, event)
    else
      ({ dm with pendingEvents := insertKey event.id event dm.pendingEvents }, event)

/-- `DeliverEvent` (the Submit operation): unconditionally overwrites
`CreatedAt` and `Status`, generates `userID_nanos` as the id when absent,
and stores the record in the pending map (replacing any record under the
same id).  The asynchronous `go processDelivery` is modelled separately. -/
def DeliverEvent (now nanos : Nat) (dm : DeliveryManager) (event : DeliveryEvent) :
    DeliveryManager × DeliveryEvent :=
  let event := { event with createdAt := now, status := DeliveryStatus.pending }
  let event :=
    if event.id = "" then
      { event with id := event.userID ++ "_" ++ toString nanos }
    else event
  ({ dm with pendingEvents := insertKey event.id event dm.pendingEvents }, event)

/-- `GetEventStatus`: map lookup under the read lock, returning the record
and an existence flag. -/
def GetEventStatus (dm : DeliveryManager) (eventID : String) :
    Option DeliveryEvent × Bool :=
  match lookupKey eventID dm.pendingEvents with
  | some e => (some e, true)
  | none => (none, false)

/-- `GetPendingEventsCount`. -/
def GetPendingEventsCount (dm : DeliveryManager) : Nat :=
  dm.pendingEvents.length

/-- The eligibility test of `retryFailedEvents`: status still pending,
attempts below `maxRetries`, and elapsed time since `createdAt` strictly
greater than `retryBackoff`. -/
def retryEligible (dm : DeliveryManager) (now : Nat) (e : DeliveryEvent) : Bool :=
  e.status = DeliveryStatus.pending &&
  decide (e.attemptCount < dm.maxRetries) &&
  decide (dm.retryBackoff < now - e.createdAt)

/-- The selection loop of `retryFailedEvents`: iterates the pending map
under the read lock appending eligible events to `eventsToRetry`; each
selected event is then re-dispatched (asynchronously) via
`processDelivery`. -/
def retryFailedEvents (dm : DeliveryManager) (now : Nat) : List DeliveryEvent :=
  dm.pendingEvents.foldl
    (fun acc p => if retryEligible dm now p.2 then acc ++ [p.2] else acc) []

/-- Outcome of the `ForceRetry` handler when an event id is supplied:
not-found, or the updated manager state together with the reset event that
is handed to the asynchronous `processDelivery`. -/
inductive ForceRetryOutcome where
  | notFound
  | retried (dm : DeliveryManager) (event : DeliveryEvent)
deriving DecidableEq, Repr

/-- The by-id branch of the `ForceRetry` handler: looks the event up in the
pending map; when found, sets `AttemptCount = 0` and `Status = Pending` on
the stored record (pointer mutation, so the map entry is updated) and
dispatches `processDelivery` on it asynchronously. -/
def ForceRetryById (dm : DeliveryManager) (eventID : String) : ForceRetryOutcome :=
  match lookupKey eventID dm.pendingEvents with
  | none => ForceRetryOutcome.notFound
  | some event =>
    let event := { event with
      attemptCount := 0
      status := DeliveryStatus.pending }
    ForceRetryOutcome.retried
      { dm with pendingEvents := insertKey eventID event dm.pendingEvents } event

/-- Response shape of the `DeliveryMetrics` handler. -/
structure MetricsResponse where
  totalPending : Nat
  filteredCount : Nat
  shownCount : Nat
  events : List DeliveryEvent
deriving Repr

/-- The `limit` computation of `DeliveryMetrics`: default 50; an explicit
parameter overrides it only when `strconv.Atoi` succeeds with a positive
value (`limitParam` is that parse result when the query parameter is
present). -/
def effectiveLimit (limitParam : Option Int) : Nat :=
  match limitParam with
  | some l => if 0 < l then l.toNat else 50
  | none => 50

/-- The filter of the `DeliveryMetrics` loop: empty `user_id` parameter
matches everything, otherwise the event's user id must equal it. -/
def metricsMatch (userID : String) (e : DeliveryEvent) : Bool :=
  userID = "" || e.userID = userID

/-- One iteration of the `DeliveryMetrics` loop: every matching event bumps
`count`, and is appended to the result slice only while `count < limit`. -/
def metricsStep (userID : String) (limit : Nat)
    (acc : List DeliveryEvent × Nat) (p : String × DeliveryEvent) :
    List DeliveryEvent × Nat :=
  if metricsMatch userID p.2 then
    (if acc.2 < limit then acc.1 ++ [p.2] else acc.1, acc.2 + 1)
  else acc

/-- The collection loop of `DeliveryMetrics` over the pending map. -/
def metricsScan (userID : String) (limit : Nat)
    (l : List (String × DeliveryEvent)) : List DeliveryEvent × Nat :=
  l.foldl (metricsStep userID limit) ([], 0)

/-- The `DeliveryMetrics` handler: filtered/limited listing with total
pending count, filtered count and shown count. -/
def DeliveryMetrics (dm : DeliveryManager) (userID : String)
    (limitParam : Option Int) : MetricsResponse :=
  let limit := effectiveLimit limitParam
  let scan := metricsScan userID limit dm.pendingEvents
  { totalPending := dm.pendingEvents.length
    filteredCount := scan.2
    shownCount := scan.1.length
    events := scan.1 }

/-- Response of the single-event `EventStatus` endpoint (the service
unavailable branch for an uninitialized manager is not modelled). -/
inductive EventStatusResponse where
  | badRequest
  | notFound
  | ok (e : DeliveryEvent)
deriving DecidableEq, Repr

/-- The `EventStatus` handler: empty id is a bad request; an id absent from
the pending map yields the not-found response; otherwise the record is
returned. -/
def eventStatusEndpoint (dm : DeliveryManager) (eventID : String) :
    EventStatusResponse :=
  if eventID = "" then EventStatusResponse.badRequest
  else
    match GetEventStatus dm eventID with
    | (some e, true) => EventStatusResponse.ok e
    | _ => EventStatusResponse.notFound

/-! ## Concrete fixtures used by witnesses and counterexamples -/

/-- An environment with no channel enabled (no user webhook URL for any
token, empty global webhook, broker disabled); HTTP clients present and
all network calls succeeding. -/
def envNone : Env where
  getUserWebhookUrl := fun _ => ""
  globalWebhook := ""
  rabbitEnabled := false
  httpClient := fun _ => true
  userHookErr := fun _ => none
  globalHookErr := fun _ => none
  rabbitErr := fun _ => none
  ctxExpired := false

/-- Only the user webhook enabled, deterministically succeeding. -/
def envUserOk : Env :=
  { envNone with getUserWebhookUrl := fun _ => "http://hook.example" }

/-- Only the user webhook enabled, deterministically failing with a
transport error. -/
def envUserFail : Env :=
  { envNone with
    getUserWebhookUrl := fun _ => "http://hook.example"
    userHookErr := fun _ => some "connection refused" }

/-- User webhook enabled but the tenant has no registered HTTP client. -/
def envNoClient : Env :=
  { envNone with
    getUserWebhookUrl := fun _ => "http://hook.example"
    httpClient := fun _ => false }

/-- A sample event as stored after submission. -/
def ev1 : DeliveryEvent where
  id := "u1_7"
  userID := "u1"
  token := "tok1"
  eventType := "Message"
  jsonData := "{}"
  filePath := ""
  createdAt := 0
  attemptCount := 0
  status := DeliveryStatus.pending
  lastError := ""

/-- `ev1` after two failing cycles (one attempt away from `maxRetries = 3`). -/
def ev2 : DeliveryEvent := { ev1 with attemptCount := 2 }

/-- An empty manager with the `InitDeliveryManager` defaults
(`maxRetries = 3`, sweep interval 2). -/
def dm0 : DeliveryManager where
  pendingEvents := []
  maxRetries := 3
  retryBackoff := 2

/-- A manager holding `ev1`, with `maxRetries = 1` so a single failing
cycle is terminal. -/
def dmOne : DeliveryManager where
  pendingEvents := [("u1_7", ev1)]
  maxRetries := 1
  retryBackoff := 2

/-! ## Helper lemmas -/

/-- The `allSuccess` fold with an arbitrary starting accumulator. -/
theorem foldl_and_success (rs : List DeliveryResult) (b : Bool) :
    rs.foldl (fun acc r => acc && r.success) b = (b && rs.all (fun r => r.success)) := by
  induction rs generalizing b with
  | nil => simp
  | cons r rest ih => simp [List.foldl_cons, ih, Bool.and_assoc]

/-- The aggregation loop computes the conjunction of all result flags. -/
theorem aggregateSuccess_eq_all (rs : List DeliveryResult) :
    aggregateSuccess rs = rs.all (fun r => r.success) := by
  simp [aggregateSuccess, foldl_and_success]

/-- `allSuccess` holds exactly when every collected result is a success. -/
theorem aggregateSuccess_eq_true_iff (rs : List DeliveryResult) :
    aggregateSuccess rs = true ↔ ∀ r ∈ rs, r.success = true := by
  simp [aggregateSuccess_eq_all, List.all_eq_true]

/-- After `delete`, the deleted key no longer resolves. -/
theorem lookupKey_eraseKey_self (k : String) (l : List (String × DeliveryEvent)) :
    lookupKey k (eraseKey k l) = none := by
  induction l with
  | nil => rfl
  | cons p rest ih =>
    by_cases h : p.1 = k
    · simpa [eraseKey, List.filter_cons, h] using ih
    · simpa [eraseKey, List.filter_cons, h, lookupKey] using ih

/-- Lookup skips a prefix that does not contain the key. -/
theorem lookupKey_append_of_none (k : String) (l1 l2 : List (String × DeliveryEvent))
    (h : lookupKey k l1 = none) :
    lookupKey k (l1 ++ l2) = lookupKey k l2 := by
  induction l1 with
  | nil => rfl
  | cons p rest ih =>
    by_cases hp : p.1 = k
    · simp [lookupKey, hp] at h
    · simp only [lookupKey, hp, if_neg hp] at h ⊢
      simpa [List.cons_append, lookupKey, hp] using ih h

/-- After map assignment, the assigned key resolves to the new value. -/
theorem lookupKey_insertKey_self (k : String) (v : DeliveryEvent)
    (l : List (String × DeliveryEvent)) :
    lookupKey k (insertKey k v l) = some v := by
  have h := lookupKey_eraseKey_self k l
  rw [insertKey, lookupKey_append_of_none k _ _ h]
  simp [lookupKey]

/-! ## Claims -/

/-- C1: in every fan-out cycle, aggregation declares overall success
exactly when every dispatched channel adapter reported success, and on
overall success the event's status is set to Delivered and the event is
removed from the pending map. -/
theorem processDelivery_success_iff (env : Env) (dm : DeliveryManager)
    (e : DeliveryEvent) :
    (aggregateSuccess (collectResults env e) = true ↔
      ∀ r ∈ collectResults env e, r.success = true) ∧
    (aggregateSuccess (collectResults env e) = true →
      (processDelivery env dm e).2.status = DeliveryStatus.delivered ∧
      lookupKey e.id (processDelivery env dm e).1.pendingEvents = none) := by
  refine ⟨aggregateSuccess_eq_true_iff _, fun h => ?_⟩
  simp [processDelivery, h, lookupKey_eraseKey_self]

/-- Witness for C1: a single enabled, succeeding channel yields Delivered
and eviction from the pending map. -/
theorem processDelivery_success_iff_witness :
    (processDelivery envUserOk dm0 ev1).2.status = DeliveryStatus.delivered ∧
    lookupKey ev1.id (processDelivery envUserOk dm0 ev1).1.pendingEvents = none :=
  (processDelivery_success_iff envUserOk dm0 ev1).2 (by decide)

/-- C5: a submitted event for which no channel is enabled dispatches no
adapter at all (skipped channels are not failures), and its first fan-out
cycle ends with status Delivered and the event removed from the pending
map. -/
theorem submit_noChannels_delivered (env : Env) (now nanos : Nat)
    (dm : DeliveryManager) (e : DeliveryEvent)
    (hu : env.getUserWebhookUrl e.token = "")
    (hg : env.globalWebhook = "")
    (hr : env.rabbitEnabled = false) :
    collectResults env (DeliverEvent now nanos dm e).2 = [] ∧
    (processDelivery env (DeliverEvent now nanos dm e).1
        (DeliverEvent now nanos dm e).2).2.status = DeliveryStatus.delivered ∧
    lookupKey (DeliverEvent now nanos dm e).2.id
      (processDelivery env (DeliverEvent now nanos dm e).1
        (DeliverEvent now nanos dm e).2).1.pendingEvents = none := by
  have htok : (DeliverEvent now nanos dm e).2.token = e.token := by
    unfold DeliverEvent
    dsimp only
    split <;> rfl
  have hcr : collectResults env (DeliverEvent now nanos dm e).2 = [] := by
    simp [collectResults, htok, hu, hg, hr]
  refine ⟨hcr, ?_, ?_⟩
  · simp [processDelivery, hcr, aggregateSuccess]
  · simp [processDelivery, hcr, aggregateSuccess, lookupKey_eraseKey_self]

/-- Witness for C5 at a concrete submission with every channel disabled. -/
theorem submit_noChannels_delivered_witness :
    collectResults envNone (DeliverEvent 5 9 dm0 ev1).2 = [] ∧
    (processDelivery envNone (DeliverEvent 5 9 dm0 ev1).1
        (DeliverEvent 5 9 dm0 ev1).2).2.status = DeliveryStatus.delivered ∧
    lookupKey (DeliverEvent 5 9 dm0 ev1).2.id
      (processDelivery envNone (DeliverEvent 5 9 dm0 ev1).1
        (DeliverEvent 5 9 dm0 ev1).2).1.pendingEvents = none :=
  submit_noChannels_delivered envNone 5 9 dm0 ev1 rfl rfl rfl

/-- C6: when a fan-out cycle on a pending event ends in a terminal status
(Delivered or Failed), the event is removed from the pending map, so
`GetEventStatus` afterwards reports `found = false` and the single-event
endpoint responds not-found. -/
theorem terminal_not_found (env : Env) (dm : DeliveryManager) (e : DeliveryEvent)
    (hp : e.status = DeliveryStatus.pending) (hid : e.id ≠ "")
    (hterm : (processDelivery env dm e).2.status ≠ DeliveryStatus.pending) :
    GetEventStatus (processDelivery env dm e).1 e.id = (none, false) ∧
    eventStatusEndpoint (processDelivery env dm e).1 e.id
      = EventStatusResponse.notFound := by
  have hnone : lookupKey e.id (processDelivery env dm e).1.pendingEvents = none := by
    by_cases h1 : aggregateSuccess (collectResults env e) = true
    · simp [processDelivery, h1, lookupKey_eraseKey_self]
    · have h1f : aggregateSuccess (collectResults env e) = false := by
        simpa using h1
      by_cases h2 : dm.maxRetries ≤ e.attemptCount + 1
      · simp [processDelivery, h1f, h2, lookupKey_eraseKey_self]
      · exfalso
        apply hterm
        simp [processDelivery, h1f, h2, hp]
  constructor
  · simp [GetEventStatus, hnone]
  · simp [eventStatusEndpoint, hid, GetEventStatus, hnone]

/-- Witness for C6: one failing cycle against `maxRetries = 1` is
terminal, and the event's id afterwards resolves to not-found. -/
theorem terminal_not_found_witness :
    GetEventStatus (processDelivery envUserFail dmOne ev1).1 ev1.id = (none, false) ∧
    eventStatusEndpoint (processDelivery envUserFail dmOne ev1).1 ev1.id
      = EventStatusResponse.notFound :=
  terminal_not_found envUserFail dmOne ev1 rfl (by decide) (by decide)

/-- Each user-webhook result is tagged with channel "webhook". -/
theorem deliverToUserWebhook_channel (env : Env) (e : DeliveryEvent) (url : String) :
    (deliverToUserWebhook env e url).channel = "webhook" := by
  unfold deliverToUserWebhook
  by_cases h : env.httpClient e.userID
  · cases henv : env.userHookErr e <;> simp [h, henv]
  · simp [h]

/-- Each global-webhook result is tagged with channel "global_webhook". -/
theorem deliverToGlobalWebhook_channel (env : Env) (e : DeliveryEvent) :
    (deliverToGlobalWebhook env e).channel = "global_webhook" := by
  unfold deliverToGlobalWebhook
  by_cases h : env.httpClient e.userID
  · cases henv : env.globalHookErr e <;> simp [h, henv]
  · simp [h]

/-- Each RabbitMQ result is tagged with channel "rabbitmq". -/
theorem deliverToRabbitMQ_channel (env : Env) (e : DeliveryEvent) :
    (deliverToRabbitMQ env e).channel = "rabbitmq" := by
  unfold deliverToRabbitMQ
  by_cases h : env.ctxExpired
  · simp [h]
  · cases henv : env.rabbitErr e <;> simp [h, henv]

/-- The fan-out dispatches exactly the enabled channels, whatever the
event's attempt history. -/
theorem collectResults_channels (env : Env) (e : DeliveryEvent) :
    (collectResults env e).map (fun r => r.channel) = enabledChannels env e := by
  simp only [collectResults, enabledChannels, List.map_append]
  split_ifs <;>
    simp [deliverToUserWebhook_channel, deliverToGlobalWebhook_channel,
      deliverToRabbitMQ_channel]

/-- C2 counterexample: on a failing cycle the code never copies a channel
result's error into `lastError`.  A non-terminal failing cycle (failing
result error "connection refused") leaves `lastError` at its previous
value `""`, and the terminal cycle sets the fixed string
"Max retries exceeded" instead of the failing result's error. -/
theorem processDelivery_lastError_cex :
    (collectResults envUserFail ev1).map (fun r => r.error) = ["connection refused"] ∧
    aggregateSuccess (collectResults envUserFail ev1) = false ∧
    (processDelivery envUserFail dm0 ev1).2.status = DeliveryStatus.pending ∧
    (processDelivery envUserFail dm0 ev1).2.lastError = "" ∧
    (collectResults envUserFail ev2).map (fun r => r.error) = ["connection refused"] ∧
    (processDelivery envUserFail dm0 ev2).2.status = DeliveryStatus.failed ∧
    (processDelivery envUserFail dm0 ev2).2.lastError = "Max retries exceeded" := by
  decide

/-- C2 (amended): on a failing cycle `attemptCount` is incremented; if it
reaches `maxRetries` the status becomes Failed, `lastError` is set to the
fixed string "Max retries exceeded", and the event is removed from the
pending map; otherwise status and `lastError` are unchanged (the event
remains Pending with its previous `lastError`) and the record stays in
the map. -/
theorem processDelivery_failure (env : Env) (dm : DeliveryManager)
    (e : DeliveryEvent)
    (h : aggregateSuccess (collectResults env e) = false) :
    (processDelivery env dm e).2.attemptCount = e.attemptCount + 1 ∧
    (dm.maxRetries ≤ e.attemptCount + 1 →
      (processDelivery env dm e).2.status = DeliveryStatus.failed ∧
      (processDelivery env dm e).2.lastError = "Max retries exceeded" ∧
      lookupKey e.id (processDelivery env dm e).1.pendingEvents = none) ∧
    (e.attemptCount + 1 < dm.maxRetries →
      (processDelivery env dm e).2.status = e.status ∧
      (processDelivery env dm e).2.lastError = e.lastError ∧
      lookupKey e.id (processDelivery env dm e).1.pendingEvents
        = some (processDelivery env dm e).2) := by
  by_cases h2 : dm.maxRetries ≤ e.attemptCount + 1
  · refine ⟨?_, fun _ => ⟨?_, ?_, ?_⟩, fun hlt => absurd h2 (by omega)⟩ <;>
      simp [processDelivery, h, h2, lookupKey_eraseKey_self]
  · refine ⟨?_, fun hle => absurd hle h2, fun _ => ⟨?_, ?_, ?_⟩⟩ <;>
      simp [processDelivery, h, h2, lookupKey_insertKey_self]

/-- Witness for C2 (amended) on a concrete failing, non-terminal cycle. -/
theorem processDelivery_failure_witness :
    (processDelivery envUserFail dm0 ev1).2.attemptCount = 1 ∧
    (processDelivery envUserFail dm0 ev1).2.status = DeliveryStatus.pending ∧
    (processDelivery envUserFail dm0 ev1).2.lastError = "" := by
  have h := processDelivery_failure envUserFail dm0 ev1 (by decide)
  exact ⟨h.1, (h.2.2 (by decide)).1, (h.2.2 (by decide)).2.1⟩

/-- C3 counterexample: a successful fan-out cycle with one dispatched
channel does not increment `attemptCount` — it stays 0. -/
theorem attemptCount_success_cex :
    (collectResults envUserOk ev1).length = 1 ∧
    aggregateSuccess (collectResults envUserOk ev1) = true ∧
    ev1.attemptCount = 0 ∧
    (processDelivery envUserOk dm0 ev1).2.attemptCount = 0 := by
  decide

/-- C3 (amended): `attemptCount` is unchanged by a successful fan-out
cycle, incremented by exactly 1 by a failing cycle, and starting below
`maxRetries` it never exceeds `maxRetries` after a cycle. -/
theorem attemptCount_step (env : Env) (dm : DeliveryManager) (e : DeliveryEvent) :
    (aggregateSuccess (collectResults env e) = true →
      (processDelivery env dm e).2.attemptCount = e.attemptCount) ∧
    (aggregateSuccess (collectResults env e) = false →
      (processDelivery env dm e).2.attemptCount = e.attemptCount + 1) ∧
    (e.attemptCount < dm.maxRetries →
      (processDelivery env dm e).2.attemptCount ≤ dm.maxRetries) := by
  refine ⟨fun h => by simp [processDelivery, h], fun h => ?_, fun hlt => ?_⟩
  · by_cases h2 : dm.maxRetries ≤ e.attemptCount + 1 <;> simp [processDelivery, h, h2]
  · by_cases h1 : aggregateSuccess (collectResults env e) = true
    · simp only [processDelivery, h1, if_true]
      omega
    · have h1f : aggregateSuccess (collectResults env e) = false := by simpa using h1
      by_cases h2 : dm.maxRetries ≤ e.attemptCount + 1 <;>
        simp [processDelivery, h1f, h2] <;> omega

/-- Witness for C3 (amended): a successful cycle keeps the count at 0, a
failing cycle moves it to 1, within the bound `maxRetries = 3`. -/
theorem attemptCount_step_witness :
    (processDelivery envUserOk dm0 ev1).2.attemptCount = 0 ∧
    (processDelivery envUserFail dm0 ev1).2.attemptCount = 1 ∧
    (processDelivery envUserFail dm0 ev1).2.attemptCount ≤ 3 :=
  ⟨(attemptCount_step envUserOk dm0 ev1).1 (by decide),
   (attemptCount_step envUserFail dm0 ev1).2.1 (by decide),
   (attemptCount_step envUserFail dm0 ev1).2.2 (by decide)⟩

/-- C4 counterexample: an event that reached Failed was evicted from the
pending map, so `ForceRetry` with its id reports not-found instead of
resetting it (here one failing cycle against `maxRetries = 1` is
terminal). -/
theorem forceRetry_failed_cex :
    (processDelivery envUserFail dmOne ev1).2.status = DeliveryStatus.failed ∧
    ForceRetryById (processDelivery envUserFail dmOne ev1).1 ev1.id
      = ForceRetryOutcome.notFound := by
  decide

/-- C4 (amended): `ForceRetry` with an id applies only to events still in
the pending map; for such an event it resets `attemptCount` to 0, sets
status to Pending (updating the stored record), and re-triggers a fan-out
that dispatches exactly the enabled channels — independently of any
earlier per-channel outcome.  An event that previously reached Failed has
been evicted, so the handler reports not-found (see the
counterexample). -/
theorem ForceRetryById_resets (dm : DeliveryManager) (eventID : String)
    (e : DeliveryEvent) (h : lookupKey eventID dm.pendingEvents = some e) :
    ∃ dm' e', ForceRetryById dm eventID = ForceRetryOutcome.retried dm' e' ∧
      e'.attemptCount = 0 ∧
      e'.status = DeliveryStatus.pending ∧
      lookupKey eventID dm'.pendingEvents = some e' ∧
      (∀ env : Env, (collectResults env e').map (fun r => r.channel)
        = enabledChannels env e') := by
  have hfr : ForceRetryById dm eventID
      = ForceRetryOutcome.retried
          { dm with
            pendingEvents :=
              insertKey eventID
                { e with attemptCount := 0, status := DeliveryStatus.pending }
                dm.pendingEvents }
          { e with attemptCount := 0, status := DeliveryStatus.pending } := by
    unfold ForceRetryById
    rw [h]
  exact ⟨_, _, hfr, rfl, rfl, lookupKey_insertKey_self _ _ _,
    fun env => collectResults_channels env _⟩

/-- Witness for C4 (amended): resetting a pending event that is present in
the map. -/
theorem ForceRetryById_resets_witness :
    ∃ dm' e', ForceRetryById dmOne "u1_7" = ForceRetryOutcome.retried dm' e' ∧
      e'.attemptCount = 0 ∧
      e'.status = DeliveryStatus.pending ∧
      lookupKey "u1_7" dm'.pendingEvents = some e' ∧
      (∀ env : Env, (collectResults env e').map (fun r => r.channel)
        = enabledChannels env e') :=
  ForceRetryById_resets dmOne "u1_7" ev1 (by decide)

/-- Membership in the `retryFailedEvents` selection fold. -/
theorem retryFold_mem (dm : DeliveryManager) (now : Nat)
    (l : List (String × DeliveryEvent)) (acc : List DeliveryEvent)
    (e : DeliveryEvent) :
    e ∈ l.foldl
        (fun acc p => if retryEligible dm now p.2 then acc ++ [p.2] else acc) acc ↔
      e ∈ acc ∨ ∃ k, (k, e) ∈ l ∧ retryEligible dm now e = true := by
  induction l generalizing acc with
  | nil => simp
  | cons p rest ih =>
    simp only [List.foldl_cons]
    by_cases h : retryEligible dm now p.2 = true
    · rw [if_pos h, ih]
      constructor
      · rintro (hmem | ⟨k, hk, he⟩)
        · rcases List.mem_append.mp hmem with hacc | hp
          · exact Or.inl hacc
          · have hep : e = p.2 := by simpa using hp
            exact Or.inr ⟨p.1, by simp [hep], by rw [hep]; exact h⟩
        · exact Or.inr ⟨k, List.mem_cons_of_mem _ hk, he⟩
      · rintro (hacc | ⟨k, hk, he⟩)
        · exact Or.inl (List.mem_append.mpr (Or.inl hacc))
        · rcases List.mem_cons.mp hk with heq | hk2
          · have hep : e = p.2 := (Prod.ext_iff.mp heq).2
            exact Or.inl (List.mem_append.mpr (Or.inr (by simp [hep])))
          · exact Or.inr ⟨k, hk2, he⟩
    · rw [if_neg h, ih]
      constructor
      · rintro (hacc | ⟨k, hk, he⟩)
        · exact Or.inl hacc
        · exact Or.inr ⟨k, List.mem_cons_of_mem _ hk, he⟩
      · rintro (hacc | ⟨k, hk, he⟩)
        · exact Or.inl hacc
        · rcases List.mem_cons.mp hk with heq | hk2
          · exfalso
            apply h
            have hep : e = p.2 := (Prod.ext_iff.mp heq).2
            rw [← hep]
            exact he
          · exact Or.inr ⟨k, hk2, he⟩

/-- The three sweep conditions, as the boolean eligibility test. -/
theorem retryEligible_iff (dm : DeliveryManager) (now : Nat) (e : DeliveryEvent) :
    retryEligible dm now e = true ↔
      e.status = DeliveryStatus.pending ∧ e.attemptCount < dm.maxRetries ∧
        dm.retryBackoff < now - e.createdAt := by
  simp [retryEligible, and_assoc]

/-- C7: a retry sweep selects exactly the stored pending events with
status Pending, `attemptCount < maxRetries`, and elapsed time since
`createdAt` strictly greater than the sweep interval; each selected event
(and no other) is then re-dispatched through the fan-out. -/
theorem retryFailedEvents_selects (dm : DeliveryManager) (now : Nat)
    (e : DeliveryEvent) :
    e ∈ retryFailedEvents dm now ↔
      (∃ k, (k, e) ∈ dm.pendingEvents) ∧
      e.status = DeliveryStatus.pending ∧
      e.attemptCount < dm.maxRetries ∧
      dm.retryBackoff < now - e.createdAt := by
  rw [retryFailedEvents, retryFold_mem]
  simp only [List.not_mem_nil, false_or]
  constructor
  · rintro ⟨k, hk, he⟩
    exact ⟨⟨k, hk⟩, (retryEligible_iff dm now e).mp he⟩
  · rintro ⟨⟨k, hk⟩, hconds⟩
    exact ⟨k, hk, (retryEligible_iff dm now e).mpr hconds⟩

/-- Witness for C7: a stored pending event with 0 attempts and age above
the sweep interval is selected. -/
theorem retryFailedEvents_selects_witness :
    ev1 ∈ retryFailedEvents dmOne 5 :=
  (retryFailedEvents_selects dmOne 5 ev1).mpr
    ⟨⟨"u1_7", by decide⟩, rfl, by decide, by decide⟩

/-- The metrics loop counts every matching pending event, also beyond the
limit. -/
theorem metricsScan_count_aux (userID : String) (limit : Nat)
    (l : List (String × DeliveryEvent)) :
    ∀ acc : List DeliveryEvent × Nat,
      (l.foldl (metricsStep userID limit) acc).2
        = acc.2 + (l.filter (fun p => metricsMatch userID p.2)).length := by
  induction l with
  | nil => intro acc; simp
  | cons p rest ih =>
    intro acc
    simp only [List.foldl_cons, List.filter_cons]
    by_cases h : metricsMatch userID p.2 = true
    · rw [ih]
      simp only [metricsStep, h, if_true, List.length_cons]
      omega
    · rw [ih]
      simp [metricsStep, h]

/-- The metrics loop never stores more than `limit` events. -/
theorem metricsScan_len_aux (userID : String) (limit : Nat)
    (l : List (String × DeliveryEvent)) :
    ∀ acc : List DeliveryEvent × Nat,
      acc.1.length ≤ acc.2 → acc.1.length ≤ limit →
      (l.foldl (metricsStep userID limit) acc).1.length ≤ limit := by
  induction l with
  | nil => intro acc _ h2; simpa using h2
  | cons p rest ih =>
    intro acc h1 h2
    simp only [List.foldl_cons]
    refine ih _ ?_ ?_
    · unfold metricsStep
      split_ifs with hm hl
      · simp only [List.length_append, List.length_cons, List.length_nil]
        omega
      · simp only []
        omega
      · exact h1
    · unfold metricsStep
      split_ifs with hm hl
      · simp only [List.length_append, List.length_cons, List.length_nil]
        omega
      · simpa using h2
      · exact h2

/-- Every event stored by the metrics loop matches the tenant filter. -/
theorem metricsScan_mem_aux (userID : String) (limit : Nat)
    (l : List (String × DeliveryEvent)) :
    ∀ (acc : List DeliveryEvent × Nat) (e : DeliveryEvent),
      e ∈ (l.foldl (metricsStep userID limit) acc).1 →
      e ∈ acc.1 ∨ metricsMatch userID e = true := by
  induction l with
  | nil => intro acc e h; exact Or.inl h
  | cons p rest ih =>
    intro acc e h
    simp only [List.foldl_cons] at h
    rcases ih _ e h with hmem | hm
    · unfold metricsStep at hmem
      by_cases h1 : metricsMatch userID p.2 = true
      · rw [if_pos h1] at hmem
        by_cases h2 : acc.2 < limit
        · rw [if_pos h2] at hmem
          rcases List.mem_append.mp hmem with h3 | h3
          · exact Or.inl h3
          · have he : e = p.2 := by simpa using h3
            rw [he]
            exact Or.inr h1
        · rw [if_neg h2] at hmem
          exact Or.inl hmem
      · rw [if_neg h1] at hmem
        exact Or.inl hmem
    · exact Or.inr hm

/-- C8: the pending-event listing returns at most `limit` events (50 when
the query parameter is absent), each matching the tenant filter, together
with the total pending count and the count of all events matching the
filter, including those beyond the limit. -/
theorem DeliveryMetrics_spec (dm : DeliveryManager) (userID : String)
    (limitParam : Option Int) :
    (DeliveryMetrics dm userID limitParam).events.length
        ≤ effectiveLimit limitParam ∧
    effectiveLimit none = 50 ∧
    (DeliveryMetrics dm userID limitParam).shownCount
      = (DeliveryMetrics dm userID limitParam).events.length ∧
    (DeliveryMetrics dm userID limitParam).totalPending
      = GetPendingEventsCount dm ∧
    (DeliveryMetrics dm userID limitParam).filteredCount
      = (dm.pendingEvents.filter (fun p => metricsMatch userID p.2)).length ∧
    (∀ e ∈ (DeliveryMetrics dm userID limitParam).events,
      metricsMatch userID e = true) := by
  refine ⟨?_, rfl, rfl, rfl, ?_, ?_⟩
  · exact metricsScan_len_aux userID _ dm.pendingEvents ([], 0)
      (by simp) (by simp)
  · have h := metricsScan_count_aux userID (effectiveLimit limitParam)
      dm.pendingEvents ([], 0)
    simpa [DeliveryMetrics, metricsScan] using h
  · intro e he
    rcases metricsScan_mem_aux userID (effectiveLimit limitParam)
        dm.pendingEvents ([], 0) e he with h | h
    · simp at h
    · exact h

/-- Witness for C8 on a concrete one-event manager with no filter and no
limit parameter. -/
theorem DeliveryMetrics_spec_witness :
    (DeliveryMetrics dmOne "" none).events.length ≤ effectiveLimit none ∧
    (DeliveryMetrics dmOne "" none).filteredCount
      = (dmOne.pendingEvents.filter (fun p => metricsMatch "" p.2)).length :=
  ⟨(DeliveryMetrics_spec dmOne "" none).1,
   (DeliveryMetrics_spec dmOne "" none).2.2.2.2.1⟩

/-- C9: `DeliverEvent` unconditionally overwrites the caller-supplied
status and creation time (status to Pending, createdAt to now), keeps the
supplied id, and stores the new record in the pending map under that id,
replacing any previous record (so the previous record's attempt history
is discarded — the stored count is the new event's own). -/
theorem DeliverEvent_overwrites (now nanos : Nat) (dm : DeliveryManager)
    (e : DeliveryEvent) (h : e.id ≠ "") :
    (DeliverEvent now nanos dm e).2.status = DeliveryStatus.pending ∧
    (DeliverEvent now nanos dm e).2.createdAt = now ∧
    (DeliverEvent now nanos dm e).2.id = e.id ∧
    (DeliverEvent now nanos dm e).2.attemptCount = e.attemptCount ∧
    (DeliverEvent now nanos dm e).2.lastError = e.lastError ∧
    lookupKey e.id (DeliverEvent now nanos dm e).1.pendingEvents
      = some (DeliverEvent now nanos dm e).2 := by
  have hif :
      ¬ (({ e with createdAt := now, status := DeliveryStatus.pending } : DeliveryEvent).id = "") :=
    h
  simp only [DeliverEvent, if_neg hif]
  exact ⟨trivial, trivial, trivial, trivial, trivial, lookupKey_insertKey_self _ _ _⟩

/-- Witness for C9: submitting a record that carries a Failed status, an
old timestamp and a positive attempt count over an existing entry. -/
theorem DeliverEvent_overwrites_witness :
    (DeliverEvent 9 11 dmOne ev2).2.status = DeliveryStatus.pending ∧
    (DeliverEvent 9 11 dmOne ev2).2.createdAt = 9 ∧
    (DeliverEvent 9 11 dmOne ev2).2.id = ev2.id ∧
    (DeliverEvent 9 11 dmOne ev2).2.attemptCount = ev2.attemptCount ∧
    (DeliverEvent 9 11 dmOne ev2).2.lastError = ev2.lastError ∧
    lookupKey ev2.id (DeliverEvent 9 11 dmOne ev2).1.pendingEvents
      = some (DeliverEvent 9 11 dmOne ev2).2 :=
  DeliverEvent_overwrites 9 11 dmOne ev2 (by decide)

/-- C10: when no HTTP client is registered for the event's user, the
user-webhook adapter returns a failure with the fixed error
"HTTP client not found for user" and the global-webhook adapter a failure
with "HTTP client not available" — independently of any network outcome —
and a dispatch of either channel then makes the cycle's aggregation a
failure, exactly like a transport error. -/
theorem clientMissing_failure (env : Env) (e : DeliveryEvent) (url : String)
    (h : env.httpClient e.userID = false) :
    deliverToUserWebhook env e url
      = { channel := "webhook", success := false,
          error := "HTTP client not found for user" } ∧
    deliverToGlobalWebhook env e
      = { channel := "global_webhook", success := false,
          error := "HTTP client not available" } ∧
    (env.getUserWebhookUrl e.token ≠ "" →
      aggregateSuccess (collectResults env e) = false) ∧
    (env.globalWebhook ≠ "" →
      aggregateSuccess (collectResults env e) = false) := by
  have hu : deliverToUserWebhook env e url
      = { channel := "webhook", success := false,
          error := "HTTP client not found for user" } := by
    simp [deliverToUserWebhook, h]
  have hg : deliverToGlobalWebhook env e
      = { channel := "global_webhook", success := false,
          error := "HTTP client not available" } := by
    simp [deliverToGlobalWebhook, h]
  refine ⟨hu, hg, fun hen => ?_, fun hen => ?_⟩
  · have hmem : deliverToUserWebhook env e (env.getUserWebhookUrl e.token)
        ∈ collectResults env e := by
      simp [collectResults, hen]
    cases hb : aggregateSuccess (collectResults env e) with
    | false => rfl
    | true =>
      have hall := (aggregateSuccess_eq_true_iff _).mp hb _ hmem
      have hfail : (deliverToUserWebhook env e
          (env.getUserWebhookUrl e.token)).success = false := by
        simp [deliverToUserWebhook, h]
      rw [hfail] at hall
      exact absurd hall (by simp)
  · have hmem : deliverToGlobalWebhook env e ∈ collectResults env e := by
      simp [collectResults, hen]
    cases hb : aggregateSuccess (collectResults env e) with
    | false => rfl
    | true =>
      have hall := (aggregateSuccess_eq_true_iff _).mp hb _ hmem
      rw [hg] at hall
      exact absurd hall (by simp)

/-- Witness for C10 with a registered user URL and no HTTP client. -/
theorem clientMissing_failure_witness :
    deliverToUserWebhook envNoClient ev1 "http://hook.example"
      = { channel := "webhook", success := false,
          error := "HTTP client not found for user" } ∧
    deliverToGlobalWebhook envNoClient ev1
      = { channel := "global_webhook", success := false,
          error := "HTTP client not available" } ∧
    aggregateSuccess (collectResults envNoClient ev1) = false := by
  have h := clientMissing_failure envNoClient ev1 "http://hook.example" (by decide)
  exact ⟨h.1, h.2.1, h.2.2.1 (by decide)⟩
